import Mathlib

/-!
Verification of the foundry-agent subsystem: the conversation Thread
Directory (THREADS with get_thread_id / set_thread_id), tool discovery
(load_tools, load_tool_from_module_path, load_tool_from_mcp_path) and the
message-run orchestrator (on_message).  Source: app/src/utils.py and
app/src/main.py.  Remote collaborators (the azure agents client) are
modelled as an abstract runtime record of oracles, per the external
interface they are consumed through.
-/

/-! ## Conversation Thread Directory (utils.py, THREADS) -/

/-- The process-global THREADS mapping: channel_id to a per-channel mapping
from conversation_id to thread_id.  A Python dict is modelled as a partial
function. -/
abbrev Threads := String → Option (String → Option String)

/-- The empty THREADS mapping. -/
def emptyThreads : Threads := fun _ => none

/-- The normalization both operations apply first: a None channel_id
becomes the literal string "unknown". -/
def normalizeChannel : Option String → String
  | none => "unknown"
  | some c => c

/-- Embeds get_thread_id (utils.py lines 94-100).  Every statement of the
source body is a read, so the state component of the result is the input
mapping; the second component is the looked-up thread id, None when the
channel has no entry or the inner dict lacks the conversation id. -/
def get_thread_id (threads : Threads) (channel_id : Option String)
    (conversation_id : String) : Threads × Option String :=
  let ch := normalizeChannel channel_id
  match threads ch with
  | none => (threads, none)
  | some inner => (threads, inner conversation_id)

/-- Embeds set_thread_id (utils.py lines 103-108): create the per-channel
dict when absent, then upsert the conversation entry. -/
def set_thread_id (threads : Threads) (channel_id : Option String)
    (conversation_id : String) (thread_id : String) : Threads :=
  let ch := normalizeChannel channel_id
  let inner : String → Option String :=
    match threads ch with
    | none => fun _ => none
    | some m => m
  fun c =>
    if c = ch then
      some (fun conv => if conv = conversation_id then some thread_id else inner conv)
    else threads c

/-- C1: set_thread_id followed by get_thread_id on the same pair returns the
written thread id, for every channel_id (including None) and conversation_id;
and both operations normalize a None channel_id to "unknown" (acting on None
exactly as on some "unknown"). -/
theorem set_then_get_roundtrip (threads : Threads) (channel_id : Option String)
    (conversation_id thread_id : String) :
    (get_thread_id (set_thread_id threads channel_id conversation_id thread_id)
        channel_id conversation_id).2 = some thread_id
    ∧ set_thread_id threads none conversation_id thread_id
        = set_thread_id threads (some "unknown") conversation_id thread_id
    ∧ get_thread_id threads none conversation_id
        = get_thread_id threads (some "unknown") conversation_id := by
  refine ⟨?_, rfl, rfl⟩
  simp only [get_thread_id, set_thread_id]
  cases h : threads (normalizeChannel channel_id) <;> simp

/-- C9: get_thread_id is a pure lookup: the mapping it returns is the input
mapping unchanged (no entry is created or modified), and on an unseen pair
(the normalized channel has no inner dict, or the inner dict has no entry
for the conversation) it returns None. -/
theorem get_thread_id_pure (threads : Threads) (channel_id : Option String)
    (conversation_id : String) :
    (get_thread_id threads channel_id conversation_id).1 = threads
    ∧ ((∀ inner, threads (normalizeChannel channel_id) = some inner →
          inner conversation_id = none) →
        (get_thread_id threads channel_id conversation_id).2 = none) := by
  constructor
  · simp only [get_thread_id]
    cases threads (normalizeChannel channel_id) <;> rfl
  · intro h
    simp only [get_thread_id]
    cases hc : threads (normalizeChannel channel_id) with
    | none => rfl
    | some inner => simpa using h inner hc

/-- Witness for C9 at a concrete unseen pair on the empty mapping. -/
theorem get_thread_id_pure_witness :
    (get_thread_id emptyThreads (some "teams") "c1").1 = emptyThreads
    ∧ ((∀ inner, emptyThreads (normalizeChannel (some "teams")) = some inner →
          inner "c1" = none) →
        (get_thread_id emptyThreads (some "teams") "c1").2 = none)
    ∧ (get_thread_id emptyThreads (some "teams") "c1").2 = none := by
  refine ⟨(get_thread_id_pure emptyThreads (some "teams") "c1").1,
    (get_thread_id_pure emptyThreads (some "teams") "c1").2, ?_⟩
  exact (get_thread_id_pure emptyThreads (some "teams") "c1").2
    (fun inner h => by simp [emptyThreads] at h)

/-! ## Tool discovery (utils.py, load_tools and helpers) -/

/-- A Python function object that may carry the agent-tool marker.  Equality
of PyObjects models CPython object identity (the hash a Python set uses for
functions); objId distinguishes distinct objects that share a name. -/
structure PyObject where
  name : String
  objId : Nat
  isAgentTool : Bool
deriving DecidableEq

/-- Embeds agent_function_tool (utils.py lines 12-14): sets the marker
attribute on the callable. -/
def agent_function_tool (f : PyObject) : PyObject :=
  { f with isAgentTool := true }

/-- A loaded Python module, as its attribute values in dir() order. -/
abbrev PyModule := List PyObject

/-- Python set.add on a set of callables: no-op when an equal element (same
object identity) is already present. -/
def pySetAdd (s : List PyObject) (x : PyObject) : List PyObject :=
  if x ∈ s then s else s ++ [x]

/-- Adding every element of a list to a Python set, in order. -/
def pySetAddAll (s : List PyObject) (xs : List PyObject) : List PyObject :=
  xs.foldl pySetAdd s

/-- Python set.union of two sets of callables. -/
def pySetUnion (s t : List PyObject) : List PyObject :=
  pySetAddAll s t

/-- Embeds load_tool_from_module_path (utils.py lines 44-64): iterate the
module attributes and add to a fresh set every one whose _is_agent_tool
attribute is true. -/
def load_tool_from_module_path (m : PyModule) : List PyObject :=
  pySetAddAll [] (m.filter (fun a => a.isAgentTool))

/-- An McpTool descriptor: its constructor requires both fields. -/
structure McpTool where
  server_label : String
  server_url : String
deriving DecidableEq

/-- One JSON record of a remote-tool configuration file; either required
field may be absent (a missing key raises KeyError on access). -/
structure McpConfigRecord where
  server_label : Option String
  server_url : Option String
deriving DecidableEq

/-- Embeds the body of the per-record loop of load_tool_from_mcp_path:
subscripting a missing key raises KeyError, which the except clause turns
into a skip, so a record lacking either field yields no tool. -/
def parseMcpRecord (config : McpConfigRecord) : Option McpTool :=
  match config.server_label, config.server_url with
  | some lbl, some url => some { server_label := lbl, server_url := url }
  | _, _ => none

/-- Embeds load_tool_from_mcp_path (utils.py lines 67-82): fold over the
records in file order, appending each successfully constructed tool and
skipping records whose construction raises KeyError. -/
def load_tool_from_mcp_path : List McpConfigRecord → List McpTool
  | [] => []
  | config :: rest =>
    match parseMcpRecord config with
    | none => load_tool_from_mcp_path rest
    | some tool => tool :: load_tool_from_mcp_path rest

/-- A record is malformed when it lacks server_label or server_url. -/
def malformedRecord (config : McpConfigRecord) : Bool :=
  config.server_label.isNone || config.server_url.isNone

/-- A FunctionTool holds the callables the agent can invoke, keyed by their
name: the wrapper the external client exposes stores the passed callables
in a dict keyed by each function's name, so a ToolSet descriptor's identity
is its name and a later same-named callable overwrites an earlier one
(last-wins on the attached object, per the external contract). -/
structure FunctionTool where
  functions : List PyObject
deriving DecidableEq

/-- One Python dict insertion keyed by function name: a present key keeps
its position and takes the new value, an absent key is appended. -/
def dictInsertByName (d : List PyObject) (f : PyObject) : List PyObject :=
  if d.any (fun g => g.name = f.name) then
    d.map (fun g => if g.name = f.name then f else g)
  else d ++ [f]

/-- The external FunctionTool constructor over the collected callables: a
dict comprehension keyed by each function's name, iterated in collection
order. -/
def functionToolOf (funcs : List PyObject) : FunctionTool :=
  { functions := funcs.foldl dictInsertByName [] }

/-- An entry of a ToolSet: the single FunctionTool, or one McpTool. -/
inductive Tool where
  | functionTool (t : FunctionTool)
  | mcpTool (t : McpTool)
deriving DecidableEq

/-- The ToolSet handed to the agent runtime at startup. -/
structure ToolSet where
  tools : List Tool
deriving DecidableEq

/-- Startup errors raised by load_tools; configurationError embeds the
ValueError raised for a missing tool directory. -/
inductive LoadError where
  | configurationError (msg : String)
deriving DecidableEq

/-- The content of an existing tool directory: the parsed records of each
glob-matched .json file and the loaded module of each .py file. -/
structure ToolDirContent where
  mcpFiles : List (List McpConfigRecord)
  pyFiles : List PyModule
deriving DecidableEq

/-- The func_tools accumulation of load_tools (utils.py lines 29-32): start
from the empty set and union in each module's marked callables. -/
def collect_func_tools (pyFiles : List PyModule) : List PyObject :=
  pyFiles.foldl (fun acc m => pySetUnion acc (load_tool_from_module_path m)) []

/-- The mcp accumulation of load_tools (utils.py lines 36-39): each parsed
tool of each file is added to the tool set in order. -/
def collect_mcp_tools (mcpFiles : List (List McpConfigRecord)) : List McpTool :=
  mcpFiles.foldl (fun acc records => acc ++ load_tool_from_mcp_path records) []

/-- Embeds load_tools (utils.py lines 17-41) over an abstract filesystem
mapping a directory path to its content when it exists.  A None tool_dir
returns the fresh empty ToolSet; a path the filesystem lacks raises
ValueError; otherwise the FunctionTool over the deduplicated callables is
added first, then every parsed McpTool. -/
def load_tools (fs : String → Option ToolDirContent) :
    Option String → Except LoadError ToolSet
  | none => .ok { tools := [] }
  | some dir =>
    match fs dir with
    | none => .error (.configurationError ("Given directory does not exist: " ++ dir))
    | some content =>
      .ok { tools :=
        Tool.functionTool (functionToolOf (collect_func_tools content.pyFiles))
          :: (collect_mcp_tools content.mcpFiles).map Tool.mcpTool }

/-! ## Lemmas about the Python-set model -/

/-- Membership after one set.add: the added element or a previous one. -/
theorem mem_pySetAdd (s : List PyObject) (x y : PyObject) :
    y ∈ pySetAdd s x ↔ y ∈ s ∨ y = x := by
  unfold pySetAdd
  split
  · rename_i hx
    constructor
    · exact fun h => Or.inl h
    · rintro (h | rfl)
      · exact h
      · exact hx
  · simp

/-- set.add preserves the no-duplicates invariant of a Python set. -/
theorem nodup_pySetAdd (s : List PyObject) (x : PyObject) (h : s.Nodup) :
    (pySetAdd s x).Nodup := by
  unfold pySetAdd
  split
  · exact h
  · rename_i hx
    simpa [List.nodup_append] using ⟨h, hx⟩

/-- Membership after adding a whole list to a Python set. -/
theorem mem_pySetAddAll (xs : List PyObject) (s : List PyObject) (y : PyObject) :
    y ∈ pySetAddAll s xs ↔ y ∈ s ∨ y ∈ xs := by
  induction xs generalizing s with
  | nil => simp [pySetAddAll]
  | cons x rest ih =>
    show y ∈ pySetAddAll (pySetAdd s x) rest ↔ _
    rw [ih, mem_pySetAdd]
    simp only [List.mem_cons]
    tauto

/-- Adding a whole list preserves the no-duplicates invariant. -/
theorem nodup_pySetAddAll (xs : List PyObject) (s : List PyObject) (h : s.Nodup) :
    (pySetAddAll s xs).Nodup := by
  induction xs generalizing s with
  | nil => exact h
  | cons x rest ih => exact ih (pySetAdd s x) (nodup_pySetAdd s x h)

/-- A callable is collected from a module iff it occurs there marked. -/
theorem mem_load_tool_from_module_path (m : PyModule) (c : PyObject) :
    c ∈ load_tool_from_module_path m ↔ c ∈ m ∧ c.isAgentTool = true := by
  unfold load_tool_from_module_path
  rw [mem_pySetAddAll]
  simp

/-- The func_tools accumulation never holds duplicates, and holds a
callable iff some scanned module holds it marked. -/
theorem collect_func_tools_spec (pyFiles : List PyModule) :
    (collect_func_tools pyFiles).Nodup
    ∧ ∀ c, c ∈ collect_func_tools pyFiles
        ↔ ∃ m ∈ pyFiles, c ∈ m ∧ c.isAgentTool = true := by
  have main : ∀ (ps : List PyModule) (s : List PyObject), s.Nodup →
      (ps.foldl (fun acc m => pySetUnion acc (load_tool_from_module_path m)) s).Nodup
      ∧ ∀ c, c ∈ ps.foldl (fun acc m => pySetUnion acc (load_tool_from_module_path m)) s
          ↔ c ∈ s ∨ ∃ m ∈ ps, c ∈ m ∧ c.isAgentTool = true := by
    intro ps
    induction ps with
    | nil => intro s hs; simpa using hs
    | cons m rest ih =>
      intro s hs
      have hstep : (pySetUnion s (load_tool_from_module_path m)).Nodup :=
        nodup_pySetAddAll _ s hs
      obtain ⟨hnd, hmem⟩ := ih (pySetUnion s (load_tool_from_module_path m)) hstep
      refine ⟨hnd, fun c => ?_⟩
      rw [List.foldl_cons] at *
      rw [hmem c]
      unfold pySetUnion
      rw [mem_pySetAddAll, mem_load_tool_from_module_path]
      simp only [List.mem_cons]
      constructor
      · rintro ((h | h) | ⟨mm, hmm, h⟩)
        · exact Or.inl h
        · exact Or.inr ⟨m, Or.inl rfl, h⟩
        · exact Or.inr ⟨mm, Or.inr hmm, h⟩
      · rintro (h | ⟨mm, (rfl | hmm), h⟩)
        · exact Or.inl (Or.inl h)
        · exact Or.inl (Or.inr h)
        · exact Or.inr ⟨mm, hmm, h⟩
  obtain ⟨hnd, hmem⟩ := main pyFiles [] List.nodup_nil
  exact ⟨hnd, fun c => by rw [collect_func_tools, hmem c]; simp⟩

/-- Inserting into the name-keyed dict keeps the key names free of
duplicates: overwriting keeps every key name in place, appending adds a
name that was absent. -/
theorem nodup_names_dictInsertByName (d : List PyObject) (f : PyObject)
    (h : (d.map (fun g => g.name)).Nodup) :
    ((dictInsertByName d f).map (fun g => g.name)).Nodup := by
  unfold dictInsertByName
  split
  · have hnames : (d.map (fun g => if g.name = f.name then f else g)).map
        (fun g => g.name) = d.map (fun g => g.name) := by
      rw [List.map_map]
      refine List.map_congr_left (fun g _ => ?_)
      by_cases hg : g.name = f.name <;> simp [hg]
    rw [hnames]
    exact h
  · rename_i habs
    rw [List.any_eq_true] at habs
    push_neg at habs
    simp only [List.map_append, List.map_cons, List.map_nil]
    rw [List.nodup_append]
    refine ⟨h, List.nodup_singleton _, fun n hn => ?_⟩
    obtain ⟨g, hg, rfl⟩ := List.mem_map.1 hn
    simpa using fun he => habs g hg (by simpa using he)

/-- A name is a key of the dict built from a list of callables iff some
callable of the list bears it. -/
theorem mem_names_foldl_dictInsertByName (funcs : List PyObject)
    (d : List PyObject) (n : String) :
    n ∈ (funcs.foldl dictInsertByName d).map (fun g => g.name)
      ↔ n ∈ d.map (fun g => g.name) ∨ ∃ f ∈ funcs, f.name = n := by
  induction funcs generalizing d with
  | nil => simp
  | cons f rest ih =>
    show n ∈ (rest.foldl dictInsertByName (dictInsertByName d f)).map _ ↔ _
    rw [ih]
    have hstep : n ∈ (dictInsertByName d f).map (fun g => g.name)
        ↔ n ∈ d.map (fun g => g.name) ∨ n = f.name := by
      unfold dictInsertByName
      split
      · rename_i hpres
        rw [List.any_eq_true] at hpres
        obtain ⟨g, hg, hgn⟩ := hpres
        have hmem : f.name ∈ d.map (fun g => g.name) :=
          List.mem_map.2 ⟨g, hg, by simpa using hgn⟩
        have hnames : (d.map (fun g => if g.name = f.name then f else g)).map
            (fun g => g.name) = d.map (fun g => g.name) := by
          rw [List.map_map]
          refine List.map_congr_left (fun g _ => ?_)
          by_cases hgf : g.name = f.name <;> simp [hgf]
        rw [hnames]
        constructor
        · exact Or.inl
        · rintro (h | rfl)
          · exact h
          · exact hmem
      · simp
    rw [hstep]
    simp only [List.mem_cons]
    constructor
    · rintro ((h | rfl) | ⟨g, hg, rfl⟩)
      · exact Or.inl h
      · exact Or.inr ⟨f, Or.inl rfl, rfl⟩
      · exact Or.inr ⟨g, Or.inr hg, rfl⟩
    · rintro (h | ⟨g, (rfl | hg), rfl⟩)
      · exact Or.inl (Or.inl h)
      · exact Or.inl (Or.inr rfl)
      · exact Or.inr ⟨g, hg, rfl⟩

/-- Building the dict from any start preserves duplicate-free key names. -/
theorem nodup_names_foldl_dictInsertByName (funcs : List PyObject)
    (d : List PyObject) (h : (d.map (fun g => g.name)).Nodup) :
    ((funcs.foldl dictInsertByName d).map (fun g => g.name)).Nodup := by
  induction funcs generalizing d with
  | nil => exact h
  | cons f rest ih => exact ih (dictInsertByName d f) (nodup_names_dictInsertByName d f h)

/-- In a list whose names are duplicate-free, a name that occurs at all
marks exactly one entry. -/
theorem countP_name_eq_one (d : List PyObject) (n : String)
    (hnd : (d.map (fun g => g.name)).Nodup) (hmem : n ∈ d.map (fun g => g.name)) :
    d.countP (fun f => f.name = n) = 1 := by
  induction d with
  | nil => simp at hmem
  | cons g rest ih =>
    simp only [List.map_cons, List.nodup_cons] at hnd
    obtain ⟨hgn, hrest⟩ := hnd
    by_cases hg : g.name = n
    · have hzero : rest.countP (fun f => f.name = n) = 0 := by
        rw [List.countP_eq_zero]
        intro f hf
        simp only [decide_eq_true_eq]
        intro hfn
        exact hgn (List.mem_map.2 ⟨f, hf, by rw [hfn, hg]⟩)
      rw [List.countP_cons]
      simp [hg, hzero]
    · have hmem2 : n ∈ rest.map (fun g => g.name) := by
        rcases List.mem_map.1 hmem with ⟨f, hf, rfl⟩
        rcases List.mem_cons.1 hf with rfl | hf2
        · exact absurd rfl hg
        · exact List.mem_map.2 ⟨f, hf2, rfl⟩
      rw [List.countP_cons]
      simp [hg, ih hrest hmem2]

/-- C2: load_tools never yields two function-tool descriptors with the same
identity: the ToolSet it returns keys the collected callables by name, the
key names carry no duplicate, and a name borne by a marked callable of any
loaded module (even by several distinct callables across modules) marks
exactly one descriptor of the resulting FunctionTool. -/
theorem load_tools_identity_dedup (fs : String → Option ToolDirContent)
    (dir : String) (content : ToolDirContent) (hfs : fs dir = some content)
    (n : String)
    (hc : ∃ m ∈ content.pyFiles, ∃ f ∈ m, f.isAgentTool = true ∧ f.name = n) :
    load_tools fs (some dir)
      = .ok { tools :=
          Tool.functionTool (functionToolOf (collect_func_tools content.pyFiles))
            :: (collect_mcp_tools content.mcpFiles).map Tool.mcpTool }
    ∧ ((functionToolOf (collect_func_tools content.pyFiles)).functions.map
        (fun g => g.name)).Nodup
    ∧ (functionToolOf (collect_func_tools content.pyFiles)).functions.countP
        (fun f => f.name = n) = 1 := by
  obtain ⟨_, hmem⟩ := collect_func_tools_spec content.pyFiles
  have hndk : ((functionToolOf (collect_func_tools content.pyFiles)).functions.map
      (fun g => g.name)).Nodup :=
    nodup_names_foldl_dictInsertByName (collect_func_tools content.pyFiles) []
      List.nodup_nil
  refine ⟨by simp only [load_tools, hfs], hndk, ?_⟩
  obtain ⟨m, hm, f, hfm, hmark, hname⟩ := hc
  have hfc : f ∈ collect_func_tools content.pyFiles :=
    (hmem f).2 ⟨m, hm, hfm, hmark⟩
  have hmemk : n ∈ (functionToolOf (collect_func_tools content.pyFiles)).functions.map
      (fun g => g.name) := by
    rw [functionToolOf]
    rw [mem_names_foldl_dictInsertByName]
    exact Or.inr ⟨f, hfc, hname⟩
  exact countP_name_eq_one _ n hndk hmemk

/-- A directory whose two modules each define a distinct marked callable
under the same name (two separate module loads yield two distinct function
objects), for the C2 witness. -/
def dupNameContent : ToolDirContent :=
  { mcpFiles := [],
    pyFiles := [[{ name := "get_weather", objId := 1, isAgentTool := true }],
                [{ name := "get_weather", objId := 2, isAgentTool := true },
                 { name := "helper", objId := 3, isAgentTool := false }]] }

/-- A one-directory filesystem for the C2 witness. -/
def dupNameFs : String → Option ToolDirContent :=
  fun d => if d = "./agent_config/tools" then some dupNameContent else none

/-- Witness for C2: two distinct callables sharing the name get_weather,
loaded from the two modules of dupNameContent, yield a ToolSet holding
exactly one descriptor for that name. -/
theorem load_tools_identity_dedup_witness :
    dupNameFs "./agent_config/tools" = some dupNameContent
    ∧ (∃ m ∈ dupNameContent.pyFiles, ∃ f ∈ m,
        f.isAgentTool = true ∧ f.name = "get_weather")
    ∧ (functionToolOf (collect_func_tools dupNameContent.pyFiles)).functions.countP
        (fun f => f.name = "get_weather") = 1 :=
  ⟨rfl, by decide,
    (load_tools_identity_dedup dupNameFs "./agent_config/tools" dupNameContent rfl
      "get_weather" (by decide)).2.2⟩

/-- C3: parsing a remote-tool configuration file with N records of which M
are malformed (missing server_label or server_url) yields exactly N - M
tools, raising nothing, and the output is exactly the successfully parsed
records in source order. -/
theorem load_tool_from_mcp_path_spec (records : List McpConfigRecord) :
    (load_tool_from_mcp_path records).length
      = records.length - (records.filter malformedRecord).length
    ∧ load_tool_from_mcp_path records = records.filterMap parseMcpRecord := by
  induction records with
  | nil => exact ⟨rfl, rfl⟩
  | cons config rest ih =>
    obtain ⟨ihlen, iheq⟩ := ih
    have hle : (rest.filter malformedRecord).length ≤ rest.length :=
      List.length_filter_le _ _
    by_cases hm : malformedRecord config = true
    · have hp : parseMcpRecord config = none := by
        unfold malformedRecord at hm
        unfold parseMcpRecord
        cases hl : config.server_label <;> cases hu : config.server_url <;>
          simp [hl, hu] at hm ⊢
      constructor
      · show (load_tool_from_mcp_path (config :: rest)).length = _
        unfold load_tool_from_mcp_path
        rw [hp, List.filter_cons_of_pos hm]
        simp only [List.length_cons]
        omega
      · show load_tool_from_mcp_path (config :: rest) = _
        unfold load_tool_from_mcp_path
        rw [hp, List.filterMap_cons_none hp, iheq]
    · have hp : ∃ tool, parseMcpRecord config = some tool := by
        unfold malformedRecord at hm
        unfold parseMcpRecord
        cases hl : config.server_label <;> cases hu : config.server_url <;>
          simp [hl, hu] at hm ⊢
      obtain ⟨tool, hp⟩ := hp
      constructor
      · show (load_tool_from_mcp_path (config :: rest)).length = _
        unfold load_tool_from_mcp_path
        rw [hp, List.filter_cons_of_neg (by simp [hm])]
        simp only [List.length_cons]
        omega
      · show load_tool_from_mcp_path (config :: rest) = _
        unfold load_tool_from_mcp_path
        rw [hp, List.filterMap_cons_some hp, iheq]

/-- C7: when the given directory path is absent from the filesystem,
load_tools raises the startup configuration error naming the path instead
of returning an empty or a reduced ToolSet. -/
theorem load_tools_missing_dir (fs : String → Option ToolDirContent)
    (dir : String) (h : fs dir = none) :
    load_tools fs (some dir)
      = .error (.configurationError ("Given directory does not exist: " ++ dir)) := by
  simp only [load_tools, h]

/-- Witness for C7: a filesystem with no directories rejects a concrete
path. -/
theorem load_tools_missing_dir_witness :
    (fun (_ : String) => (none : Option ToolDirContent)) "/missing" = none
    ∧ load_tools (fun _ => none) (some "/missing")
      = .error (.configurationError ("Given directory does not exist: " ++ "/missing")) :=
  ⟨rfl, load_tools_missing_dir (fun _ => none) "/missing" rfl⟩

/-- C10: load_tools on a None directory path (unset tool-directory
environment variable) returns the freshly constructed empty ToolSet and
raises no error, for every filesystem. -/
theorem load_tools_none_dir (fs : String → Option ToolDirContent) :
    load_tools fs none = .ok { tools := [] } :=
  rfl

/-! ## Message-run orchestrator (main.py, on_message) -/

/-- Outcome of the remote thread fetch (agent_client.threads.get): either
the thread exists, or the call raises HttpResponseError (not found or
transport failure). -/
inductive FetchResult where
  | found
  | httpError
deriving DecidableEq

/-- The terminal state and last-error detail of a processed run. -/
structure RunResult where
  status : String
  last_error : String
deriving DecidableEq

/-- The remote agent runtime as consumed through the client: a per-thread
fetch oracle, the id a thread creation returns, a per-thread run outcome,
and the text of the latest agent-authored message per thread (None when the
thread holds no agent message, in which case the client helper returns
None). -/
structure AgentRuntime where
  fetchThread : String → FetchResult
  newThreadId : String
  runResult : String → RunResult
  lastAgentMessage : String → Option String

/-- Observable remote calls and directory writes of one handler run, in
program order. -/
inductive Event where
  | fetchThread (tid : String)
  | createThread (tid : String)
  | dirWrite (channel conversation tid : String)
  | postMessage (tid role text : String)
  | runStart (tid : String)
deriving DecidableEq

/-- The per-request error the handler can raise: protocolError embeds the
AttributeError raised by reading .text on the None returned when no
agent-authored message exists on the thread. -/
inductive HandlerError where
  | protocolError
deriving DecidableEq

/-- Result of the resolve-or-create phase: the directory after it, the
thread id the rest of the handler uses, and the emitted events. -/
structure ResolveOutcome where
  threads : Threads
  tid : String
  trace : List Event

/-- Embeds main.py lines 52-59, the try/except around thread resolution: a
missing directory entry raises HttpResponseError at once; a present entry
leads to a remote fetch whose HttpResponseError is caught the same way; the
except clause creates a remote thread and registers its id via
set_thread_id before anything else runs. -/
def resolveThread (rt : AgentRuntime) (threads : Threads)
    (channel_id : Option String) (conversation_id : String) : ResolveOutcome :=
  match (get_thread_id threads channel_id conversation_id).2 with
  | none =>
    { threads := set_thread_id threads channel_id conversation_id rt.newThreadId,
      tid := rt.newThreadId,
      trace := [.createThread rt.newThreadId,
                .dirWrite (normalizeChannel channel_id) conversation_id rt.newThreadId] }
  | some tid =>
    match rt.fetchThread tid with
    | .found => { threads := threads, tid := tid, trace := [.fetchThread tid] }
    | .httpError =>
      { threads := set_thread_id threads channel_id conversation_id rt.newThreadId,
        tid := rt.newThreadId,
        trace := [.fetchThread tid, .createThread rt.newThreadId,
                  .dirWrite (normalizeChannel channel_id) conversation_id rt.newThreadId] }

/-- The full outcome of one handler invocation: directory state, the reply
sent back (or the raised error), and the event trace. -/
structure HandlerOutcome where
  threads : Threads
  reply : Except HandlerError String
  trace : List Event

/-- Embeds on_message (main.py lines 48-74): resolve or create the thread,
post the inbound text under the user role, process a run to a terminal
state; a failed run is folded into an apology reply carrying run.last_error,
any other terminal state reads the latest agent message, whose absence
(None) makes the .text access raise. -/
def on_message (rt : AgentRuntime) (threads : Threads)
    (channel_id : Option String) (conversation_id : String) (text : String) :
    HandlerOutcome :=
  let r := resolveThread rt threads channel_id conversation_id
  let trace := r.trace ++ [.postMessage r.tid "user" text, .runStart r.tid]
  let run := rt.runResult r.tid
  if run.status = "failed" then
    { threads := r.threads,
      reply := .ok ("Sorry, something went wrong while processing your request. "
        ++ run.last_error),
      trace := trace }
  else
    match rt.lastAgentMessage r.tid with
    | none => { threads := r.threads, reply := .error .protocolError, trace := trace }
    | some msg => { threads := r.threads, reply := .ok msg, trace := trace }

/-- Every branch of on_message leaves the directory exactly as the
resolve-or-create phase left it. -/
theorem on_message_threads_eq (rt : AgentRuntime) (threads : Threads)
    (channel_id : Option String) (conversation_id text : String) :
    (on_message rt threads channel_id conversation_id text).threads
      = (resolveThread rt threads channel_id conversation_id).threads := by
  simp only [on_message]
  split
  · rfl
  · split <;> rfl

/-- Every branch of on_message emits the resolve-phase events followed by
the user-role message post and the run start, on the resolved thread. -/
theorem on_message_trace_eq (rt : AgentRuntime) (threads : Threads)
    (channel_id : Option String) (conversation_id text : String) :
    (on_message rt threads channel_id conversation_id text).trace
      = (resolveThread rt threads channel_id conversation_id).trace
        ++ [.postMessage (resolveThread rt threads channel_id conversation_id).tid
              "user" text,
            .runStart (resolveThread rt threads channel_id conversation_id).tid] := by
  simp only [on_message]
  split
  · rfl
  · split <;> rfl

/-- When the directory lookup succeeds and the remote fetch finds the
thread, the resolve phase reuses that id, leaves the directory untouched
and only emits the fetch. -/
theorem resolveThread_found (rt : AgentRuntime) (threads : Threads)
    (channel_id : Option String) (conversation_id tid : String)
    (h1 : (get_thread_id threads channel_id conversation_id).2 = some tid)
    (h2 : rt.fetchThread tid = .found) :
    resolveThread rt threads channel_id conversation_id
      = { threads := threads, tid := tid, trace := [.fetchThread tid] } := by
  simp only [resolveThread, h1, h2]

/-- When the directory lookup succeeds but the remote fetch raises, the
resolve phase creates a new thread and registers its id. -/
theorem resolveThread_stale (rt : AgentRuntime) (threads : Threads)
    (channel_id : Option String) (conversation_id tid : String)
    (h1 : (get_thread_id threads channel_id conversation_id).2 = some tid)
    (h2 : rt.fetchThread tid = .httpError) :
    resolveThread rt threads channel_id conversation_id
      = { threads := set_thread_id threads channel_id conversation_id rt.newThreadId,
          tid := rt.newThreadId,
          trace := [.fetchThread tid, .createThread rt.newThreadId,
                    .dirWrite (normalizeChannel channel_id) conversation_id
                      rt.newThreadId] } := by
  simp only [resolveThread, h1, h2]

/-- When the directory lookup misses, the resolve phase creates a new
thread and registers its id under the normalized key. -/
theorem resolveThread_absent (rt : AgentRuntime) (threads : Threads)
    (channel_id : Option String) (conversation_id : String)
    (h : (get_thread_id threads channel_id conversation_id).2 = none) :
    resolveThread rt threads channel_id conversation_id
      = { threads := set_thread_id threads channel_id conversation_id rt.newThreadId,
          tid := rt.newThreadId,
          trace := [.createThread rt.newThreadId,
                    .dirWrite (normalizeChannel channel_id) conversation_id
                      rt.newThreadId] } := by
  simp only [resolveThread, h]

/-- After the resolve-or-create phase the directory maps the conversation
key to the thread id the rest of the handler uses. -/
theorem resolveThread_registers (rt : AgentRuntime) (threads : Threads)
    (channel_id : Option String) (conversation_id : String) :
    (get_thread_id (resolveThread rt threads channel_id conversation_id).threads
        channel_id conversation_id).2
      = some (resolveThread rt threads channel_id conversation_id).tid := by
  cases h : (get_thread_id threads channel_id conversation_id).2 with
  | none =>
    rw [resolveThread_absent rt threads channel_id conversation_id h]
    exact (set_then_get_roundtrip threads channel_id conversation_id rt.newThreadId).1
  | some tid =>
    cases hf : rt.fetchThread tid with
    | found =>
      rw [resolveThread_found rt threads channel_id conversation_id tid h hf]
      simpa using h
    | httpError =>
      rw [resolveThread_stale rt threads channel_id conversation_id tid h hf]
      exact (set_then_get_roundtrip threads channel_id conversation_id rt.newThreadId).1

/-- C4: when the run ends failed, the handler returns a normal reply that
carries the last-error detail as a substring (no error is raised toward the
channel adapter), the directory is exactly what the resolve phase left, and
the entry for the conversation key still maps to the thread that ran. -/
theorem on_message_failed_run (rt : AgentRuntime) (threads : Threads)
    (channel_id : Option String) (conversation_id text : String)
    (h : (rt.runResult (resolveThread rt threads channel_id conversation_id).tid).status
      = "failed") :
    (∃ p q, (on_message rt threads channel_id conversation_id text).reply
        = .ok (p ++ (rt.runResult
            (resolveThread rt threads channel_id conversation_id).tid).last_error ++ q))
    ∧ (on_message rt threads channel_id conversation_id text).threads
        = (resolveThread rt threads channel_id conversation_id).threads
    ∧ (get_thread_id (on_message rt threads channel_id conversation_id text).threads
          channel_id conversation_id).2
        = some (resolveThread rt threads channel_id conversation_id).tid := by
  refine ⟨⟨"Sorry, something went wrong while processing your request. ", "", ?_⟩,
    on_message_threads_eq rt threads channel_id conversation_id text, ?_⟩
  · simp only [on_message, h, if_pos]
    simp
  · rw [on_message_threads_eq]
    exact resolveThread_registers rt threads channel_id conversation_id

/-- A runtime whose every run fails with a rate-limit detail, for the C4
witness. -/
def rtFailing : AgentRuntime :=
  { fetchThread := fun _ => .found,
    newThreadId := "t-new",
    runResult := fun _ => { status := "failed", last_error := "rate limited" },
    lastAgentMessage := fun _ => none }

/-- Witness for C4 on a fresh conversation against rtFailing. -/
theorem on_message_failed_run_witness :
    (rtFailing.runResult
        (resolveThread rtFailing emptyThreads (some "teams") "c1").tid).status = "failed"
    ∧ ((∃ p q, (on_message rtFailing emptyThreads (some "teams") "c1" "hello").reply
          = .ok (p ++ (rtFailing.runResult
              (resolveThread rtFailing emptyThreads (some "teams") "c1").tid).last_error
            ++ q))
      ∧ (on_message rtFailing emptyThreads (some "teams") "c1" "hello").threads
          = (resolveThread rtFailing emptyThreads (some "teams") "c1").threads
      ∧ (get_thread_id
            (on_message rtFailing emptyThreads (some "teams") "c1" "hello").threads
            (some "teams") "c1").2
          = some (resolveThread rtFailing emptyThreads (some "teams") "c1").tid) :=
  ⟨rfl, on_message_failed_run rtFailing emptyThreads (some "teams") "c1" "hello" rfl⟩

/-- C5: when the directory lookup succeeds but the remote fetch of that
thread raises, the handler behaves as on an absent key: it creates a new
remote thread, registers its id in the directory under the normalized key,
and the directory write precedes the posting of the inbound message in the
event trace. -/
theorem on_message_stale_entry (rt : AgentRuntime) (threads : Threads)
    (channel_id : Option String) (conversation_id text tid : String)
    (h1 : (get_thread_id threads channel_id conversation_id).2 = some tid)
    (h2 : rt.fetchThread tid = .httpError) :
    (on_message rt threads channel_id conversation_id text).trace
      = [.fetchThread tid, .createThread rt.newThreadId,
         .dirWrite (normalizeChannel channel_id) conversation_id rt.newThreadId,
         .postMessage rt.newThreadId "user" text, .runStart rt.newThreadId]
    ∧ (on_message rt threads channel_id conversation_id text).threads
        = set_thread_id threads channel_id conversation_id rt.newThreadId
    ∧ (get_thread_id
          (on_message rt threads channel_id conversation_id text).threads
          channel_id conversation_id).2 = some rt.newThreadId
    ∧ (∃ i j, i < j
        ∧ (on_message rt threads channel_id conversation_id text).trace.get? i
            = some (.dirWrite (normalizeChannel channel_id) conversation_id
                rt.newThreadId)
        ∧ (on_message rt threads channel_id conversation_id text).trace.get? j
            = some (.postMessage rt.newThreadId "user" text)) := by
  have htr := on_message_trace_eq rt threads channel_id conversation_id text
  have hth := on_message_threads_eq rt threads channel_id conversation_id text
  rw [resolveThread_stale rt threads channel_id conversation_id tid h1 h2] at htr hth
  have htrace : (on_message rt threads channel_id conversation_id text).trace
      = [.fetchThread tid, .createThread rt.newThreadId,
         .dirWrite (normalizeChannel channel_id) conversation_id rt.newThreadId,
         .postMessage rt.newThreadId "user" text, .runStart rt.newThreadId] := by
    simpa using htr
  refine ⟨htrace, by simpa using hth, ?_, ⟨2, 3, by omega, ?_, ?_⟩⟩
  · rw [hth]
    exact (set_then_get_roundtrip threads channel_id conversation_id rt.newThreadId).1
  · rw [htrace]; rfl
  · rw [htrace]; rfl

/-- A runtime whose thread fetch always raises, for the C5 witness. -/
def rtStale : AgentRuntime :=
  { fetchThread := fun _ => .httpError,
    newThreadId := "t-2",
    runResult := fun _ => { status := "completed", last_error := "" },
    lastAgentMessage := fun _ => some "hi" }

/-- A directory already holding a stale thread id for the witness key. -/
def staleThreads : Threads :=
  set_thread_id emptyThreads (some "teams") "c1" "t-old"

/-- Witness for C5: a registered but no-longer-fetchable thread id leads to
creation, re-registration, and a directory write before the message post. -/
theorem on_message_stale_entry_witness :
    (get_thread_id staleThreads (some "teams") "c1").2 = some "t-old"
    ∧ rtStale.fetchThread "t-old" = .httpError
    ∧ ((on_message rtStale staleThreads (some "teams") "c1" "hello").trace
        = [.fetchThread "t-old", .createThread rtStale.newThreadId,
           .dirWrite (normalizeChannel (some "teams")) "c1" rtStale.newThreadId,
           .postMessage rtStale.newThreadId "user" "hello",
           .runStart rtStale.newThreadId]
      ∧ (on_message rtStale staleThreads (some "teams") "c1" "hello").threads
          = set_thread_id staleThreads (some "teams") "c1" rtStale.newThreadId
      ∧ (get_thread_id
            (on_message rtStale staleThreads (some "teams") "c1" "hello").threads
            (some "teams") "c1").2 = some rtStale.newThreadId
      ∧ (∃ i j, i < j
          ∧ (on_message rtStale staleThreads (some "teams") "c1" "hello").trace.get? i
              = some (.dirWrite (normalizeChannel (some "teams")) "c1"
                  rtStale.newThreadId)
          ∧ (on_message rtStale staleThreads (some "teams") "c1" "hello").trace.get? j
              = some (.postMessage rtStale.newThreadId "user" "hello"))) :=
  ⟨rfl, rfl,
    on_message_stale_entry rtStale staleThreads (some "teams") "c1" "hello" "t-old"
      rfl rfl⟩

/-- C6: when the run ends in the completed terminal state, the handler
returns the text of the latest agent-authored message of the thread, and
when no agent-authored message exists the handler raises the
invariant-violation error instead of returning some silent default. -/
theorem on_message_completed_run (rt : AgentRuntime) (threads : Threads)
    (channel_id : Option String) (conversation_id text : String)
    (h : (rt.runResult
        (resolveThread rt threads channel_id conversation_id).tid).status
      = "completed") :
    (rt.lastAgentMessage (resolveThread rt threads channel_id conversation_id).tid
        = none →
      (on_message rt threads channel_id conversation_id text).reply
        = .error .protocolError)
    ∧ ∀ msg,
        rt.lastAgentMessage (resolveThread rt threads channel_id conversation_id).tid
          = some msg →
        (on_message rt threads channel_id conversation_id text).reply = .ok msg := by
  have hne : ¬ ((rt.runResult
      (resolveThread rt threads channel_id conversation_id).tid).status = "failed") := by
    rw [h]; decide
  constructor
  · intro hnone
    simp only [on_message, if_neg hne, hnone]
  · intro msg hmsg
    simp only [on_message, if_neg hne, hmsg]

/-- A runtime whose runs complete but whose threads hold no agent-authored
message, for the C6 witness. -/
def rtSilent : AgentRuntime :=
  { fetchThread := fun _ => .found,
    newThreadId := "t-3",
    runResult := fun _ => { status := "completed", last_error := "" },
    lastAgentMessage := fun _ => none }

/-- Witness for C6: a completed run over a thread with no agent message
raises the invariant-violation error. -/
theorem on_message_completed_run_witness :
    (rtSilent.runResult
        (resolveThread rtSilent emptyThreads (some "teams") "c1").tid).status
      = "completed"
    ∧ rtSilent.lastAgentMessage
        (resolveThread rtSilent emptyThreads (some "teams") "c1").tid = none
    ∧ (on_message rtSilent emptyThreads (some "teams") "c1" "hello").reply
        = .error .protocolError :=
  ⟨rfl, rfl,
    (on_message_completed_run rtSilent emptyThreads (some "teams") "c1" "hello"
      rfl).1 rfl⟩

/-- Recognizes thread-creation events in a trace. -/
def isCreateThreadEvent : Event → Bool
  | .createThread _ => true
  | _ => false

/-- C8: when the directory already holds the key and the remote thread
still exists, the handler reuses the stored thread id: zero thread-creation
calls occur, the directory is untouched, and the message post and run both
use the stored id. -/
theorem on_message_reuses_thread (rt : AgentRuntime) (threads : Threads)
    (channel_id : Option String) (conversation_id text tid : String)
    (h1 : (get_thread_id threads channel_id conversation_id).2 = some tid)
    (h2 : rt.fetchThread tid = .found) :
    ((on_message rt threads channel_id conversation_id text).trace.countP
        (fun e => isCreateThreadEvent e)) = 0
    ∧ (on_message rt threads channel_id conversation_id text).threads = threads
    ∧ (on_message rt threads channel_id conversation_id text).trace
        = [.fetchThread tid, .postMessage tid "user" text, .runStart tid] := by
  have htr := on_message_trace_eq rt threads channel_id conversation_id text
  have hth := on_message_threads_eq rt threads channel_id conversation_id text
  rw [resolveThread_found rt threads channel_id conversation_id tid h1 h2] at htr hth
  have htrace : (on_message rt threads channel_id conversation_id text).trace
      = [.fetchThread tid, .postMessage tid "user" text, .runStart tid] := by
    simpa using htr
  refine ⟨?_, by simpa using hth, htrace⟩
  rw [htrace]
  rfl

/-- A healthy runtime for the C8 witness: fetch finds the thread and the
run completes with an agent reply. -/
def rtHealthy : AgentRuntime :=
  { fetchThread := fun _ => .found,
    newThreadId := "t-4",
    runResult := fun _ => { status := "completed", last_error := "" },
    lastAgentMessage := fun _ => some "hi" }

/-- A directory already holding a live thread id for the witness key. -/
def liveThreads : Threads :=
  set_thread_id emptyThreads (some "teams") "c1" "t-live"

/-- Witness for C8: a second message on a registered, still-fetchable
thread causes no thread creation and reuses the stored id. -/
theorem on_message_reuses_thread_witness :
    (get_thread_id liveThreads (some "teams") "c1").2 = some "t-live"
    ∧ rtHealthy.fetchThread "t-live" = .found
    ∧ (((on_message rtHealthy liveThreads (some "teams") "c1" "hello").trace.countP
          (fun e => isCreateThreadEvent e)) = 0
      ∧ (on_message rtHealthy liveThreads (some "teams") "c1" "hello").threads
          = liveThreads
      ∧ (on_message rtHealthy liveThreads (some "teams") "c1" "hello").trace
          = [.fetchThread "t-live", .postMessage "t-live" "user" "hello",
             .runStart "t-live"]) :=
  ⟨rfl, rfl,
    on_message_reuses_thread rtHealthy liveThreads (some "teams") "c1" "hello"
      "t-live" rfl rfl⟩
